import Mathlib

/-!
Verification of the scoring and highlighting logic of the ats-resume
repository, file src/components/ResultsStep.tsx.

Modelling conventions.  Strings are modelled as lists of characters
(`JSString`).  JavaScript numbers appear in two models.  `calculateScore`
computes the weighted sum exactly over the rationals; this idealization
agrees with the binary64 program on the inputs of the claims that use it
(fully passing, empty and failing reports, concrete examples whose
rounding errors cancel, order and bound statements preserved by the
monotone correctly rounded operations), but not at every half-integer
boundary.  `calculateScoreFP` is the bit-accurate counterpart: `fl`
rounds every intermediate value to IEEE-754 binary64 (round to nearest,
ties to even), which decides the rounding claim.  `Math.round x` is
`⌊x + 1/2⌋` applied exactly to the (rational value of the) double
argument, the ECMAScript semantics (round half toward positive
infinity).  Mutation of the deep-copied report in
`calculateOptimizedScore` is modelled by building the mutated copy as a
value; `calculateOptimizedScoreRun` additionally returns the value held by
the original `report` binding after the call, so that the absence of
mutation of the original is a statable property.
-/

/-- Strings of the JavaScript source, modelled as lists of characters. -/
abbrev JSString := List Char

/-- Tip status values from src/types.ts.  `SearchabilityTip` uses
pass / fail / info, `RecruiterTip` uses pass / warning / info; the model
uses one enumeration covering both. -/
inductive Status where
  | pass
  | fail
  | info
  | warning
  deriving DecidableEq, Repr

/-- SearchabilityTip / RecruiterTip from src/types.ts (same shape). -/
structure StatusTip where
  name : JSString
  status : Status
  message : JSString
  deriving DecidableEq, Repr

/-- Skill entry from src/types.ts; `resumeCount = -1` means "not found". -/
structure Skill where
  skill : JSString
  resumeCount : Int
  jdCount : Int
  deriving DecidableEq, Repr

/-- A tip-based report section (`searchability`, `recruiterTips`). -/
structure TipsSection where
  issues : Int
  tips : List StatusTip
  deriving DecidableEq, Repr

/-- A skill-based report section (`hardSkills`, `softSkills`). -/
structure SkillsSection where
  issues : Int
  skills : List Skill
  deriving DecidableEq, Repr

/-- Report from src/types.ts. -/
structure Report where
  searchability : TipsSection
  hardSkills : SkillsSection
  softSkills : SkillsSection
  recruiterTips : TipsSection
  deriving DecidableEq, Repr

/-- The shape of the WEIGHTS constant of ResultsStep.tsx. -/
structure Weights where
  searchability : ℚ
  hardSkills : ℚ
  softSkills : ℚ
  recruiterTips : ℚ
  deriving DecidableEq, Repr

/-- WEIGHTS from ResultsStep.tsx lines 14-19. -/
def WEIGHTS : Weights :=
  { searchability := 0.30
    hardSkills := 0.45
    softSkills := 0.10
    recruiterTips := 0.15 }

/-- JavaScript Math.round: round half toward positive infinity. -/
def mathRound (x : ℚ) : ℤ := ⌊x + 1/2⌋

/-- calculateScore from ResultsStep.tsx lines 21-49, translated clause by
clause; each section ratio is passed count over total, defaulting to 1 on
an empty section. -/
def calculateScore (report : Report) : ℤ :=
  let totalSearchability := report.searchability.tips.length
  let passedSearchability :=
    (report.searchability.tips.filter
      (fun t => t.status == Status.pass || t.status == Status.info)).length
  let searchabilityScore : ℚ :=
    if totalSearchability > 0 then
      (passedSearchability : ℚ) / (totalSearchability : ℚ)
    else 1
  let totalHardSkills := report.hardSkills.skills.length
  let foundHardSkills :=
    (report.hardSkills.skills.filter (fun s => s.resumeCount != -1)).length
  let hardSkillsScore : ℚ :=
    if totalHardSkills > 0 then
      (foundHardSkills : ℚ) / (totalHardSkills : ℚ)
    else 1
  let totalSoftSkills := report.softSkills.skills.length
  let foundSoftSkills :=
    (report.softSkills.skills.filter (fun s => s.resumeCount != -1)).length
  let softSkillsScore : ℚ :=
    if totalSoftSkills > 0 then
      (foundSoftSkills : ℚ) / (totalSoftSkills : ℚ)
    else 1
  let totalRecruiterTips := report.recruiterTips.tips.length
  let passedRecruiterTips :=
    (report.recruiterTips.tips.filter
      (fun t => t.status == Status.pass || t.status == Status.info)).length
  let recruiterTipsScore : ℚ :=
    if totalRecruiterTips > 0 then
      (passedRecruiterTips : ℚ) / (totalRecruiterTips : ℚ)
    else 1
  let finalScore : ℚ :=
    searchabilityScore * WEIGHTS.searchability +
    hardSkillsScore * WEIGHTS.hardSkills +
    softSkillsScore * WEIGHTS.softSkills +
    recruiterTipsScore * WEIGHTS.recruiterTips
  mathRound (finalScore * 100)

/-- JavaScript regex word character: `\w` is exactly `[A-Za-z0-9_]`;
`Char.isAlpha` and `Char.isDigit` are exactly those ASCII ranges. -/
def wordChar (c : Char) : Bool := c.isAlpha || c.isDigit || c == '_'

/-- Whether the character at index `j` of `t` exists and is a word
character (positions outside the string count as non-word). -/
def wordCharAt (t : JSString) (j : Nat) : Bool :=
  (t[j]?).elim false wordChar

/-- JavaScript regex `\b` at position `i` of `t` (`0 ≤ i ≤ t.length`):
a boundary holds where the word-character status changes between the
character before the position and the character at the position. -/
def boundaryAt (t : JSString) (i : Nat) : Bool :=
  (if i = 0 then false else wordCharAt t (i - 1)) != wordCharAt t i

/-- Case-insensitive literal match of `pat` against the front of `t`
(both sides lowered character-wise, the semantics of the `i` flag on a
fully escaped pattern). -/
def ciMatchesFront : JSString → JSString → Bool
  | [], _ => true
  | _ :: _, [] => false
  | a :: as, b :: bs => (a.toLower == b.toLower) && ciMatchesFront as bs

/-- The test `new RegExp("\\b" ++ escape pat ++ "\\b", "i").test t`: the
escape in ResultsStep.tsx lines 59 and 68 escapes every regex
metacharacter, so the pattern body matches exactly the literal `pat`; the
regex engine searches every start position. -/
def wholeWordOccurs (pat : JSString) (t : JSString) : Bool :=
  (List.range (t.length + 1)).any
    (fun i =>
      ciMatchesFront pat (t.drop i) && boundaryAt t i &&
        boundaryAt t (i + pat.length))

/-- The per-skill update of ResultsStep.tsx lines 57-73: a skill with
`resumeCount === -1` whose name occurs whole-word in the lowered optimized
resume text is marked found (`resumeCount := 1`). -/
def optimizeSkill (optimizedResumeLower : JSString) (skill : Skill) : Skill :=
  if skill.resumeCount == -1 then
    if wholeWordOccurs skill.skill optimizedResumeLower then
      { skill with resumeCount := 1 }
    else skill
  else skill

/-- JSON.parse(JSON.stringify(report)) of ResultsStep.tsx line 52: a deep
structural copy; on this data shape (strings, integers, arrays, plain
objects) the roundtrip reproduces the value exactly, so under value
semantics it is the identity producing an independent copy. -/
def deepCopy (report : Report) : Report := report

/-- The mutations applied to the deep copy in calculateOptimizedScore
(ResultsStep.tsx lines 57-78): mark newly found hard and soft skills, and
force every searchability and recruiter tip status to pass. -/
def optimizeReport (report : Report) (optimizedResume : JSString) : Report :=
  let optimizedResumeLower := optimizedResume.map Char.toLower
  { report with
    hardSkills :=
      { report.hardSkills with
        skills := report.hardSkills.skills.map (optimizeSkill optimizedResumeLower) }
    softSkills :=
      { report.softSkills with
        skills := report.softSkills.skills.map (optimizeSkill optimizedResumeLower) }
    searchability :=
      { report.searchability with
        tips := report.searchability.tips.map
          (fun tip => { tip with status := Status.pass }) }
    recruiterTips :=
      { report.recruiterTips with
        tips := report.recruiterTips.tips.map
          (fun tip => { tip with status := Status.pass }) } }

/-- calculateOptimizedScore from ResultsStep.tsx lines 51-82, together
with the value held by the original `report` binding after the call: the
function deep-copies the report, mutates only the copy, and scores the
copy, so the second component is the untouched original. -/
def calculateOptimizedScoreRun (report : Report) (optimizedResume : JSString) :
    ℤ × Report :=
  let optimizedReport := deepCopy report
  let optimizedReport := optimizeReport optimizedReport optimizedResume
  (calculateScore optimizedReport, report)

/-- The return value of calculateOptimizedScore (ResultsStep.tsx line 81). -/
def calculateOptimizedScore (report : Report) (optimizedResume : JSString) : ℤ :=
  (calculateOptimizedScoreRun report optimizedResume).1

/-- The three colors returned by getScoreColor. -/
inductive Color where
  | green
  | yellow
  | red
  deriving DecidableEq, Repr

/-- getScoreColor from ResultsStep.tsx lines 86-90. -/
def getScoreColor (score : Int) : Color :=
  if score ≥ 90 then Color.green
  else if score ≥ 75 then Color.yellow
  else Color.red

/-- One output segment of the keyword highlighter: the text of the
segment and whether it was wrapped in a mark element. -/
abbrev Segment := JSString × Bool

/-- Anchored match attempt at position `i` of `t` for the alternation
`\b(kw1|kw2|...)\b` built in ResultsStep.tsx line 194 (every keyword
escaped, so each alternative is a literal; JavaScript alternation tries
the alternatives in list order).  Returns the matched slice of `t`
(original casing preserved). -/
def matchKeywordAt (kws : List JSString) (t : JSString) (i : Nat) :
    Option JSString :=
  (kws.find?
      (fun k =>
        ciMatchesFront k (t.drop i) && boundaryAt t i &&
          boundaryAt t (i + k.length))).map
    (fun k => (t.drop i).take k.length)

/-- The loop of String.prototype.split with a separator regex holding one
capture group spanning the whole match (ECMAScript semantics): scan `q`
left to right from `p`, on a match emit the stretch before it and the
captured match, and continue after it; a zero-length match at `p` does
not split.  `fuel` bounds the iteration count; every call below supplies
fuel exceeding the maximum possible number of steps. -/
def splitLoop (kws : List JSString) (t : JSString) :
    Nat → Nat → Nat → List JSString
  | 0, p, _ => [t.drop p]
  | fuel + 1, p, q =>
    if q < t.length then
      match matchKeywordAt kws t q with
      | none => splitLoop kws t fuel p (q + 1)
      | some m =>
        let e := q + m.length
        if e = p then splitLoop kws t fuel p (q + 1)
        else (t.drop p).take (q - p) :: m :: splitLoop kws t fuel e e
    else [t.drop p]

/-- regex.test on a regex with the global flag (ResultsStep.tsx line
198): search forward from the persistent lastIndex; on success return
true with lastIndex moved past the match, on failure return false with
lastIndex reset to 0. -/
def regexTestStateful (kws : List JSString) (part : JSString)
    (lastIndex : Nat) : Bool × Nat :=
  match
    (List.range' lastIndex (part.length + 1 - lastIndex)).findSome?
      (fun i => (matchKeywordAt kws part i).map (fun m => i + m.length))
  with
  | some e => (true, e)
  | none => (false, 0)

/-- The map over split parts in ResultsStep.tsx lines 197-199: each part
is tested with the shared stateful global regex and tagged. -/
def tagLoop (kws : List JSString) : List JSString → Nat → List Segment
  | [], _ => []
  | part :: rest, lastIndex =>
    let r := regexTestStateful kws part lastIndex
    (part, r.1) :: tagLoop kws rest r.2

/-- highlightKeywords from ResultsStep.tsx lines 192-202: empty keyword
list or empty text returns the text as one plain node; otherwise the text
is split on the whole-word alternation and each part is tagged by testing
it against the same global regex. -/
def highlightKeywords (keywords : List JSString) (text : JSString) :
    List Segment :=
  if keywords.isEmpty || text.isEmpty then [(text, false)]
  else tagLoop keywords (splitLoop keywords text (2 * text.length + 2) 0 0) 0

/-- Concatenation of the texts of all segments, tags ignored. -/
def concatSegments (segs : List Segment) : JSString :=
  (segs.map Prod.fst).flatten

/-- Round half up, as the spec words it: the claim-side rounding. -/
def roundHalfUp (x : ℚ) : ℤ := ⌊x + 1/2⌋

/-- Count of tips with status pass or info (the numerator of a tip
section ratio). -/
def tipPassCount (tips : List StatusTip) : Nat :=
  (tips.filter (fun t => t.status == Status.pass || t.status == Status.info)).length

/-- Count of skills with resumeCount distinct from -1 (the numerator of a
skill section ratio). -/
def skillFoundCount (skills : List Skill) : Nat :=
  (skills.filter (fun s => s.resumeCount != -1)).length

/-- Ratio of `p` over `t` with full credit on an empty denominator, the
shape shared by all four section scores. -/
def fracOr1 (p t : Nat) : ℚ :=
  if t > 0 then (p : ℚ) / (t : ℚ) else 1

/-- The exact weighted sum computed by calculateScore before rounding. -/
def scoreFormula (r : Report) : ℚ :=
  fracOr1 (tipPassCount r.searchability.tips) r.searchability.tips.length *
      WEIGHTS.searchability +
    fracOr1 (skillFoundCount r.hardSkills.skills) r.hardSkills.skills.length *
      WEIGHTS.hardSkills +
    fracOr1 (skillFoundCount r.softSkills.skills) r.softSkills.skills.length *
      WEIGHTS.softSkills +
    fracOr1 (tipPassCount r.recruiterTips.tips) r.recruiterTips.tips.length *
      WEIGHTS.recruiterTips

/-- Invariant on a skill entry from spec section 3. -/
abbrev SkillInv (s : Skill) : Prop :=
  0 ≤ s.jdCount ∧ (s.resumeCount = -1 ∨ 0 ≤ s.resumeCount)

/-- Status range of a searchability tip from spec section 3. -/
abbrev TipInvSearchability (t : StatusTip) : Prop :=
  t.status = Status.pass ∨ t.status = Status.fail ∨ t.status = Status.info

/-- Status range of a recruiter tip from spec section 3. -/
abbrev TipInvRecruiter (t : StatusTip) : Prop :=
  t.status = Status.pass ∨ t.status = Status.warning ∨ t.status = Status.info

/-- The Report invariants of spec section 3. -/
abbrev ReportInvariant (r : Report) : Prop :=
  (∀ t ∈ r.searchability.tips, TipInvSearchability t) ∧
    (∀ s ∈ r.hardSkills.skills, SkillInv s) ∧
    (∀ s ∈ r.softSkills.skills, SkillInv s) ∧
    (∀ t ∈ r.recruiterTips.tips, TipInvRecruiter t)

/-- The example report of spec section 8: two hard skills, one missing,
all other sections empty. -/
def exampleReport : Report :=
  { searchability := { issues := 0, tips := [] }
    hardSkills :=
      { issues := 1
        skills :=
          [ { skill := "Python".data, resumeCount := -1, jdCount := 3 },
            { skill := "SQL".data, resumeCount := 2, jdCount := 1 } ] }
    softSkills := { issues := 0, skills := [] }
    recruiterTips := { issues := 0, tips := [] } }

/-- A report with every section non-empty and fully passing or found. -/
def fullReport : Report :=
  { searchability :=
      { issues := 0
        tips := [ { name := "a".data, status := Status.pass, message := "m".data } ] }
    hardSkills :=
      { issues := 0
        skills := [ { skill := "Python".data, resumeCount := 2, jdCount := 3 } ] }
    softSkills :=
      { issues := 0
        skills := [ { skill := "Teamwork".data, resumeCount := 0, jdCount := 1 } ] }
    recruiterTips :=
      { issues := 0
        tips := [ { name := "b".data, status := Status.info, message := "m".data } ] } }

/-- A report with all four sections empty. -/
def emptyReport : Report :=
  { searchability := { issues := 0, tips := [] }
    hardSkills := { issues := 0, skills := [] }
    softSkills := { issues := 0, skills := [] }
    recruiterTips := { issues := 0, tips := [] } }

/-- A report with every section non-empty and fully failing. -/
def failReport : Report :=
  { searchability :=
      { issues := 1
        tips := [ { name := "a".data, status := Status.fail, message := "m".data } ] }
    hardSkills :=
      { issues := 1
        skills := [ { skill := "Python".data, resumeCount := -1, jdCount := 3 } ] }
    softSkills :=
      { issues := 1
        skills := [ { skill := "Teamwork".data, resumeCount := -1, jdCount := 1 } ] }
    recruiterTips :=
      { issues := 1
        tips := [ { name := "b".data, status := Status.warning, message := "m".data } ] } }

/-- Round a rational to the nearest integer, ties to even (the rounding
of IEEE-754 round-to-nearest applied to a scaled significand). -/
def rne (s : ℚ) : ℤ :=
  if s - ⌊s⌋ < 1/2 then ⌊s⌋
  else if (1:ℚ)/2 < s - ⌊s⌋ then ⌊s⌋ + 1
  else if ⌊s⌋ % 2 = 0 then ⌊s⌋ else ⌊s⌋ + 1

/-- Round a rational to the nearest IEEE-754 binary64 value (round to
nearest, ties to even): the significand `q / 2 ^ (Int.log 2 q - 52)` lies
in `[2^52, 2^53)` and is rounded to an integer.  The exponent is
unbounded, so overflow and subnormal rounding are not modelled; every
value reached by the scoring computation on a realizable report lies well
inside the binary64 normal range, where this is exactly the binary64
rounding. -/
def fl (q : ℚ) : ℚ :=
  if q = 0 then 0
  else if 0 < q then
    (rne (q / 2 ^ (Int.log 2 q - 52)) : ℚ) * 2 ^ (Int.log 2 q - 52)
  else
    -((rne (-q / 2 ^ (Int.log 2 (-q) - 52)) : ℚ) * 2 ^ (Int.log 2 (-q) - 52))

/-- calculateScore from ResultsStep.tsx lines 21-49 once more, this time
with every JavaScript number operation rounded to binary64 by `fl`: the
weights are the binary64 values of the literals 0.30, 0.45, 0.10, 0.15,
each ratio is a correctly rounded division, the products and the
left-associated sums are each correctly rounded, and Math.round (round
half toward positive infinity, applied exactly to the resulting double)
produces the score.  List lengths and filter counts are exact in binary64
for any realizable array (below 2^53). -/
def calculateScoreFP (report : Report) : ℤ :=
  let totalSearchability := report.searchability.tips.length
  let passedSearchability :=
    (report.searchability.tips.filter
      (fun t => t.status == Status.pass || t.status == Status.info)).length
  let searchabilityScore : ℚ :=
    if totalSearchability > 0 then
      fl ((passedSearchability : ℚ) / (totalSearchability : ℚ))
    else 1
  let totalHardSkills := report.hardSkills.skills.length
  let foundHardSkills :=
    (report.hardSkills.skills.filter (fun s => s.resumeCount != -1)).length
  let hardSkillsScore : ℚ :=
    if totalHardSkills > 0 then
      fl ((foundHardSkills : ℚ) / (totalHardSkills : ℚ))
    else 1
  let totalSoftSkills := report.softSkills.skills.length
  let foundSoftSkills :=
    (report.softSkills.skills.filter (fun s => s.resumeCount != -1)).length
  let softSkillsScore : ℚ :=
    if totalSoftSkills > 0 then
      fl ((foundSoftSkills : ℚ) / (totalSoftSkills : ℚ))
    else 1
  let totalRecruiterTips := report.recruiterTips.tips.length
  let passedRecruiterTips :=
    (report.recruiterTips.tips.filter
      (fun t => t.status == Status.pass || t.status == Status.info)).length
  let recruiterTipsScore : ℚ :=
    if totalRecruiterTips > 0 then
      fl ((passedRecruiterTips : ℚ) / (totalRecruiterTips : ℚ))
    else 1
  let p1 : ℚ := fl (searchabilityScore * fl 0.30)
  let p2 : ℚ := fl (hardSkillsScore * fl 0.45)
  let p3 : ℚ := fl (softSkillsScore * fl 0.10)
  let p4 : ℚ := fl (recruiterTipsScore * fl 0.15)
  let finalScore : ℚ := fl (fl (fl (p1 + p2) + p3) + p4)
  mathRound (fl (finalScore * 100))

/-- The binary64 ratio of a tip section. -/
def fpTipRatio (tips : List StatusTip) : ℚ :=
  if tips.length > 0 then
    fl ((tipPassCount tips : ℚ) / (tips.length : ℚ))
  else 1

/-- The binary64 ratio of a skill section. -/
def fpSkillRatio (skills : List Skill) : ℚ :=
  if skills.length > 0 then
    fl ((skillFoundCount skills : ℚ) / (skills.length : ℚ))
  else 1

/-- The binary64 weighted sum computed by calculateScoreFP before the
final multiplication by 100. -/
def fpFinal (r : Report) : ℚ :=
  fl (fl (fl
      (fl (fpTipRatio r.searchability.tips * fl 0.30) +
        fl (fpSkillRatio r.hardSkills.skills * fl 0.45)) +
      fl (fpSkillRatio r.softSkills.skills * fl 0.10)) +
    fl (fpTipRatio r.recruiterTips.tips * fl 0.15))

/-- A half-boundary report: searchability 4 of 4 passing, hard skills 3
of 4 found, soft skills 4 of 4 found, recruiter tips 1 of 4 passing.  The
exact weighted sum times 100 is 77.5, but the binary64 evaluation gives
77.5 - 2^(-46), which Math.round takes to 77. -/
def cexReport : Report :=
  { searchability :=
      { issues := 0
        tips :=
          [ { name := "s1".data, status := Status.pass, message := "m".data },
            { name := "s2".data, status := Status.pass, message := "m".data },
            { name := "s3".data, status := Status.pass, message := "m".data },
            { name := "s4".data, status := Status.pass, message := "m".data } ] }
    hardSkills :=
      { issues := 1
        skills :=
          [ { skill := "A".data, resumeCount := 1, jdCount := 1 },
            { skill := "B".data, resumeCount := 2, jdCount := 1 },
            { skill := "C".data, resumeCount := 0, jdCount := 1 },
            { skill := "D".data, resumeCount := -1, jdCount := 1 } ] }
    softSkills :=
      { issues := 0
        skills :=
          [ { skill := "E".data, resumeCount := 1, jdCount := 1 },
            { skill := "F".data, resumeCount := 1, jdCount := 1 },
            { skill := "G".data, resumeCount := 1, jdCount := 1 },
            { skill := "H".data, resumeCount := 1, jdCount := 1 } ] }
    recruiterTips :=
      { issues := 3
        tips :=
          [ { name := "r1".data, status := Status.pass, message := "m".data },
            { name := "r2".data, status := Status.warning, message := "m".data },
            { name := "r3".data, status := Status.warning, message := "m".data },
            { name := "r4".data, status := Status.warning, message := "m".data } ] } }


lemma calculateScore_eq (r : Report) :
    calculateScore r = mathRound (scoreFormula r * 100) := rfl

lemma calculateOptimizedScore_eq (r : Report) (t : JSString) :
    calculateOptimizedScore r t = calculateScore (optimizeReport r t) := rfl

lemma fracOr1_nonneg (p t : Nat) : 0 ≤ fracOr1 p t := by
  unfold fracOr1
  split
  · positivity
  · norm_num

lemma fracOr1_le_one {p t : Nat} (h : p ≤ t) : fracOr1 p t ≤ 1 := by
  unfold fracOr1
  split
  · rename_i ht
    rw [div_le_one (by exact_mod_cast ht)]
    exact_mod_cast h
  · exact le_refl 1

lemma fracOr1_self (n : Nat) : fracOr1 n n = 1 := by
  unfold fracOr1
  split
  · rename_i hn
    exact div_self (Nat.cast_ne_zero.mpr (by omega))
  · rfl

lemma tipPassCount_le (tips : List StatusTip) : tipPassCount tips ≤ tips.length :=
  List.length_filter_le _ _

lemma skillFoundCount_le (skills : List Skill) :
    skillFoundCount skills ≤ skills.length :=
  List.length_filter_le _ _

lemma mathRound_mono {x y : ℚ} (h : x ≤ y) : mathRound x ≤ mathRound y :=
  Int.floor_le_floor (by linarith)

lemma scoreFormula_nonneg (r : Report) : 0 ≤ scoreFormula r := by
  unfold scoreFormula
  have h1 := fracOr1_nonneg (tipPassCount r.searchability.tips) r.searchability.tips.length
  have h2 := fracOr1_nonneg (skillFoundCount r.hardSkills.skills) r.hardSkills.skills.length
  have h3 := fracOr1_nonneg (skillFoundCount r.softSkills.skills) r.softSkills.skills.length
  have h4 := fracOr1_nonneg (tipPassCount r.recruiterTips.tips) r.recruiterTips.tips.length
  have w : WEIGHTS.searchability = 0.30 ∧ WEIGHTS.hardSkills = 0.45 ∧
      WEIGHTS.softSkills = 0.10 ∧ WEIGHTS.recruiterTips = 0.15 := ⟨rfl, rfl, rfl, rfl⟩
  obtain ⟨w1, w2, w3, w4⟩ := w
  rw [w1, w2, w3, w4]
  positivity

lemma scoreFormula_le_one (r : Report) : scoreFormula r ≤ 1 := by
  unfold scoreFormula
  have h1 := fracOr1_le_one (tipPassCount_le r.searchability.tips)
  have h2 := fracOr1_le_one (skillFoundCount_le r.hardSkills.skills)
  have h3 := fracOr1_le_one (skillFoundCount_le r.softSkills.skills)
  have h4 := fracOr1_le_one (tipPassCount_le r.recruiterTips.tips)
  have g1 := fracOr1_nonneg (tipPassCount r.searchability.tips) r.searchability.tips.length
  have g2 := fracOr1_nonneg (skillFoundCount r.hardSkills.skills) r.hardSkills.skills.length
  have g3 := fracOr1_nonneg (skillFoundCount r.softSkills.skills) r.softSkills.skills.length
  have g4 := fracOr1_nonneg (tipPassCount r.recruiterTips.tips) r.recruiterTips.tips.length
  have w1 : WEIGHTS.searchability = 0.30 := rfl
  have w2 : WEIGHTS.hardSkills = 0.45 := rfl
  have w3 : WEIGHTS.softSkills = 0.10 := rfl
  have w4 : WEIGHTS.recruiterTips = 0.15 := rfl
  rw [w1, w2, w3, w4]
  nlinarith

lemma calculateScore_nonneg (r : Report) : 0 ≤ calculateScore r := by
  rw [calculateScore_eq]
  unfold mathRound
  have h := scoreFormula_nonneg r
  exact Int.le_floor.mpr (by push_cast; linarith)

lemma calculateScore_le_hundred (r : Report) : calculateScore r ≤ 100 := by
  rw [calculateScore_eq]
  unfold mathRound
  have h := scoreFormula_le_one r
  have : scoreFormula r * 100 + 1/2 < 101 := by linarith
  have hf : ⌊scoreFormula r * 100 + 1/2⌋ < 101 := by
    exact_mod_cast Int.floor_lt.mpr (by exact_mod_cast this)
  omega

/-- C2: calculateOptimizedScore leaves the original report untouched: the
post-call value of the report binding is the input itself, calculateScore
on it is unchanged, and the returned score is the first component of the
run. -/
theorem claim_C2 (r : Report) (t : JSString) :
    (calculateOptimizedScoreRun r t).2 = r ∧
    calculateScore (calculateOptimizedScoreRun r t).2 = calculateScore r ∧
    calculateOptimizedScore r t = (calculateOptimizedScoreRun r t).1 :=
  ⟨rfl, rfl, rfl⟩

/-- C9: for every Report, with arbitrary (possibly invariant-violating)
integer count fields, calculateScore and calculateOptimizedScore are total
and return an integer in [0, 100]. -/
theorem claim_C9 (r : Report) (t : JSString) :
    0 ≤ calculateScore r ∧ calculateScore r ≤ 100 ∧
    0 ≤ calculateOptimizedScore r t ∧ calculateOptimizedScore r t ≤ 100 := by
  rw [calculateOptimizedScore_eq]
  exact ⟨calculateScore_nonneg r, calculateScore_le_hundred r,
    calculateScore_nonneg _, calculateScore_le_hundred _⟩

/-- C8: getScoreColor returns green exactly on scores at least 90, yellow
exactly on scores in [75, 90), red exactly below 75; in particular 90 is
green, 89 and 75 are yellow, 74 is red. -/
theorem claim_C8 (score : ℤ) :
    (getScoreColor score = Color.green ↔ 90 ≤ score) ∧
    (getScoreColor score = Color.yellow ↔ 75 ≤ score ∧ score < 90) ∧
    (getScoreColor score = Color.red ↔ score < 75) ∧
    getScoreColor 90 = Color.green ∧ getScoreColor 89 = Color.yellow ∧
    getScoreColor 75 = Color.yellow ∧ getScoreColor 74 = Color.red := by
  refine ⟨?_, ?_, ?_, by decide, by decide, by decide, by decide⟩ <;>
    (unfold getScoreColor; split_ifs <;> simp_all <;> omega)

lemma scoreFormula_exampleReport : scoreFormula exampleReport = 31/40 := by
  have w1 : WEIGHTS.searchability = 0.30 := rfl
  have w2 : WEIGHTS.hardSkills = 0.45 := rfl
  have w3 : WEIGHTS.softSkills = 0.10 := rfl
  have w4 : WEIGHTS.recruiterTips = 0.15 := rfl
  norm_num [scoreFormula, exampleReport, tipPassCount, skillFoundCount, fracOr1,
    w1, w2, w3, w4]

lemma calculateScore_exampleReport : calculateScore exampleReport = 78 := by
  rw [calculateScore_eq, scoreFormula_exampleReport]
  have h2 : ((31:ℚ)/40 * 100 + 1/2) = ((78:ℤ):ℚ) := by norm_num
  rw [mathRound, h2, Int.floor_intCast]

/-- C4 counterexample: on the example report of spec section 8 (hard
skills Python missing and SQL found, all other sections empty),
calculateScore does not return 98: the weighted sum is 0.775, not 0.975,
so the score is 78. -/
theorem claim_C4_counterexample : calculateScore exampleReport ≠ 98 := by
  rw [calculateScore_exampleReport]
  decide

/-- C4 amended: on that report the weighted sum is
1*0.30 + 0.5*0.45 + 1*0.10 + 1*0.15 = 0.775, and calculateScore returns
round-half-up of 77.5, which is 78. -/
theorem claim_C4_amended : calculateScore exampleReport = 78 :=
  calculateScore_exampleReport

lemma tipPassCount_all_pass {tips : List StatusTip}
    (h : ∀ tp ∈ tips, tp.status = Status.pass ∨ tp.status = Status.info) :
    tipPassCount tips = tips.length := by
  unfold tipPassCount
  have e : tips.filter
      (fun t => t.status == Status.pass || t.status == Status.info) = tips :=
    List.filter_eq_self.mpr (by
      intro a ha
      rcases h a ha with h1 | h1 <;> simp [h1])
  rw [e]

lemma tipPassCount_none {tips : List StatusTip}
    (h : ∀ tp ∈ tips, tp.status ≠ Status.pass ∧ tp.status ≠ Status.info) :
    tipPassCount tips = 0 := by
  unfold tipPassCount
  have e : tips.filter
      (fun t => t.status == Status.pass || t.status == Status.info) = [] :=
    List.filter_eq_nil_iff.mpr (by
      intro a ha
      have := h a ha
      simp [this.1, this.2])
  rw [e]
  rfl

lemma skillFoundCount_all {skills : List Skill}
    (h : ∀ s ∈ skills, s.resumeCount ≠ -1) :
    skillFoundCount skills = skills.length := by
  unfold skillFoundCount
  have e : skills.filter (fun s => s.resumeCount != -1) = skills :=
    List.filter_eq_self.mpr (by
      intro a ha
      simpa using h a ha)
  rw [e]

lemma skillFoundCount_none {skills : List Skill}
    (h : ∀ s ∈ skills, s.resumeCount = -1) :
    skillFoundCount skills = 0 := by
  unfold skillFoundCount
  have e : skills.filter (fun s => s.resumeCount != -1) = [] :=
    List.filter_eq_nil_iff.mpr (by
      intro a ha
      simpa using h a ha)
  rw [e]
  rfl

lemma fracOr1_zero_num {t : Nat} (h : 0 < t) : fracOr1 0 t = 0 := by
  unfold fracOr1
  rw [if_pos h]
  simp

lemma mathRound_hundred : mathRound 100 = 100 := by
  unfold mathRound
  rw [Int.floor_eq_iff]
  constructor <;> norm_num

lemma mathRound_zero : mathRound 0 = 0 := by
  unfold mathRound
  rw [Int.floor_eq_iff]
  constructor <;> norm_num

/-- C5: calculateScore returns exactly 100 on every report whose four
sections are all non-empty and fully passing/found, exactly 100 on every
report whose four sections are all empty, and exactly 0 on every report
whose four sections are all non-empty and fully failing. -/
theorem claim_C5 :
    (∀ r : Report,
      r.searchability.tips ≠ [] →
      (∀ tp ∈ r.searchability.tips,
        tp.status = Status.pass ∨ tp.status = Status.info) →
      r.hardSkills.skills ≠ [] →
      (∀ s ∈ r.hardSkills.skills, s.resumeCount ≠ -1) →
      r.softSkills.skills ≠ [] →
      (∀ s ∈ r.softSkills.skills, s.resumeCount ≠ -1) →
      r.recruiterTips.tips ≠ [] →
      (∀ tp ∈ r.recruiterTips.tips,
        tp.status = Status.pass ∨ tp.status = Status.info) →
      calculateScore r = 100) ∧
    (∀ r : Report,
      r.searchability.tips = [] → r.hardSkills.skills = [] →
      r.softSkills.skills = [] → r.recruiterTips.tips = [] →
      calculateScore r = 100) ∧
    (∀ r : Report,
      r.searchability.tips ≠ [] →
      (∀ tp ∈ r.searchability.tips,
        tp.status ≠ Status.pass ∧ tp.status ≠ Status.info) →
      r.hardSkills.skills ≠ [] →
      (∀ s ∈ r.hardSkills.skills, s.resumeCount = -1) →
      r.softSkills.skills ≠ [] →
      (∀ s ∈ r.softSkills.skills, s.resumeCount = -1) →
      r.recruiterTips.tips ≠ [] →
      (∀ tp ∈ r.recruiterTips.tips,
        tp.status ≠ Status.pass ∧ tp.status ≠ Status.info) →
      calculateScore r = 0) := by
  have w1 : WEIGHTS.searchability = 0.30 := rfl
  have w2 : WEIGHTS.hardSkills = 0.45 := rfl
  have w3 : WEIGHTS.softSkills = 0.10 := rfl
  have w4 : WEIGHTS.recruiterTips = 0.15 := rfl
  refine ⟨?_, ?_, ?_⟩
  · intro r _ h2 _ h4 _ h6 _ h8
    have e : scoreFormula r = 1 := by
      unfold scoreFormula
      rw [tipPassCount_all_pass h2, skillFoundCount_all h4,
        skillFoundCount_all h6, tipPassCount_all_pass h8,
        fracOr1_self, fracOr1_self, fracOr1_self, fracOr1_self,
        w1, w2, w3, w4]
      norm_num
    rw [calculateScore_eq, e, show ((1:ℚ) * 100) = 100 by norm_num]
    exact mathRound_hundred
  · intro r h1 h2 h3 h4
    have e : scoreFormula r = 1 := by
      unfold scoreFormula
      rw [h1, h2, h3, h4, w1, w2, w3, w4]
      norm_num [tipPassCount, skillFoundCount, fracOr1]
    rw [calculateScore_eq, e, show ((1:ℚ) * 100) = 100 by norm_num]
    exact mathRound_hundred
  · intro r h1 h2 h3 h4 h5 h6 h7 h8
    have e : scoreFormula r = 0 := by
      unfold scoreFormula
      rw [tipPassCount_none h2, skillFoundCount_none h4,
        skillFoundCount_none h6, tipPassCount_none h8,
        fracOr1_zero_num (List.length_pos.mpr h1),
        fracOr1_zero_num (List.length_pos.mpr h3),
        fracOr1_zero_num (List.length_pos.mpr h5),
        fracOr1_zero_num (List.length_pos.mpr h7)]
      norm_num
    rw [calculateScore_eq, e, show ((0:ℚ) * 100) = 0 by norm_num]
    exact mathRound_zero

/-- C5 witness: concrete fully passing, fully empty and fully failing
reports scoring 100, 100 and 0. -/
theorem claim_C5_witness :
    calculateScore fullReport = 100 ∧ calculateScore emptyReport = 100 ∧
      calculateScore failReport = 0 :=
  ⟨claim_C5.1 fullReport (by decide) (by decide) (by decide) (by decide)
      (by decide) (by decide) (by decide) (by decide),
    claim_C5.2.1 emptyReport rfl rfl rfl rfl,
    claim_C5.2.2 failReport (by decide) (by decide) (by decide) (by decide)
      (by decide) (by decide) (by decide) (by decide)⟩

lemma optimizeSkill_keeps_found (low : JSString) (a : Skill)
    (h : (a.resumeCount != -1) = true) :
    ((optimizeSkill low a).resumeCount != -1) = true := by
  have h' : a.resumeCount ≠ -1 := by simpa using h
  unfold optimizeSkill
  rw [if_neg (by simpa using h')]
  exact h

lemma skillFoundCount_le_map (low : JSString) (l : List Skill) :
    skillFoundCount l ≤ skillFoundCount (l.map (optimizeSkill low)) := by
  unfold skillFoundCount
  rw [← List.countP_eq_length_filter, ← List.countP_eq_length_filter,
    List.countP_map]
  exact List.countP_mono_left
    (fun a _ h => optimizeSkill_keeps_found low a h)

lemma tipPassCount_map_pass (tips : List StatusTip) :
    tipPassCount
        (tips.map (fun tip => { tip with status := Status.pass })) =
      tips.length := by
  unfold tipPassCount
  rw [List.filter_map]
  have e : ((fun t : StatusTip =>
        t.status == Status.pass || t.status == Status.info) ∘
      (fun tip : StatusTip => { tip with status := Status.pass })) =
      fun _ => true := by
    funext tip
    simp
  rw [e]
  simp

lemma fracOr1_mono {p q t : Nat} (h : p ≤ q) : fracOr1 p t ≤ fracOr1 q t := by
  unfold fracOr1
  split
  · rename_i ht
    rw [div_le_div_iff_of_pos_right (show (0:ℚ) < (t:ℚ) by exact_mod_cast ht)]
    exact_mod_cast h
  · exact le_refl 1

/-- C10: for every Report satisfying the section-3 invariants and every
optimized resume text, the optimized score is at least the original
score: the transformation only raises section ratios. -/
theorem claim_C10 (r : Report) (t : JSString) (_hinv : ReportInvariant r) :
    calculateScore r ≤ calculateOptimizedScore r t := by
  rw [calculateOptimizedScore_eq, calculateScore_eq, calculateScore_eq]
  apply mathRound_mono
  apply mul_le_mul_of_nonneg_right ?_ (by norm_num)
  unfold scoreFormula
  have e1 : (optimizeReport r t).searchability.tips =
      r.searchability.tips.map (fun tip => { tip with status := Status.pass }) := rfl
  have e2 : (optimizeReport r t).hardSkills.skills =
      r.hardSkills.skills.map (optimizeSkill (t.map Char.toLower)) := rfl
  have e3 : (optimizeReport r t).softSkills.skills =
      r.softSkills.skills.map (optimizeSkill (t.map Char.toLower)) := rfl
  have e4 : (optimizeReport r t).recruiterTips.tips =
      r.recruiterTips.tips.map (fun tip => { tip with status := Status.pass }) := rfl
  rw [e1, e2, e3, e4, tipPassCount_map_pass, tipPassCount_map_pass,
    List.length_map, List.length_map, List.length_map, List.length_map,
    fracOr1_self, fracOr1_self]
  have b1 : fracOr1 (tipPassCount r.searchability.tips)
      r.searchability.tips.length ≤ 1 := fracOr1_le_one (tipPassCount_le _)
  have b2 : fracOr1 (skillFoundCount r.hardSkills.skills)
        r.hardSkills.skills.length ≤
      fracOr1
        (skillFoundCount
          (r.hardSkills.skills.map (optimizeSkill (t.map Char.toLower))))
        r.hardSkills.skills.length :=
    fracOr1_mono (skillFoundCount_le_map _ _)
  have b3 : fracOr1 (skillFoundCount r.softSkills.skills)
        r.softSkills.skills.length ≤
      fracOr1
        (skillFoundCount
          (r.softSkills.skills.map (optimizeSkill (t.map Char.toLower))))
        r.softSkills.skills.length :=
    fracOr1_mono (skillFoundCount_le_map _ _)
  have b4 : fracOr1 (tipPassCount r.recruiterTips.tips)
      r.recruiterTips.tips.length ≤ 1 := fracOr1_le_one (tipPassCount_le _)
  have w1 : WEIGHTS.searchability = 0.30 := rfl
  have w2 : WEIGHTS.hardSkills = 0.45 := rfl
  have w3 : WEIGHTS.softSkills = 0.10 := rfl
  have w4 : WEIGHTS.recruiterTips = 0.15 := rfl
  rw [w1, w2, w3, w4]
  nlinarith [b1, b2, b3, b4]

/-- C10 witness: the invariant holds of the example report and the
optimized score on a text naming the missing skill is at least the
original score. -/
theorem claim_C10_witness :
    calculateScore exampleReport ≤
      calculateOptimizedScore exampleReport "Python".data :=
  claim_C10 exampleReport "Python".data (by decide)

/-- C3: calculateOptimizedScore scores a copy of the report in which a
skill with resumeCount -1 whose name occurs as a case-insensitive whole
word in the text gets resumeCount 1, skills with resumeCount distinct
from -1 are untouched, and every searchability and recruiter tip status
is forced to pass; whole-word matching does not match Java inside
JavaScript. -/
theorem claim_C3 (r : Report) (t : JSString) :
    calculateOptimizedScore r t =
      calculateScore
        { searchability :=
            { issues := r.searchability.issues
              tips := r.searchability.tips.map
                (fun tip => { tip with status := Status.pass }) }
          hardSkills :=
            { issues := r.hardSkills.issues
              skills := r.hardSkills.skills.map
                (fun s =>
                  if s.resumeCount = -1 then
                    if wholeWordOccurs s.skill (t.map Char.toLower) then
                      { s with resumeCount := 1 }
                    else s
                  else s) }
          softSkills :=
            { issues := r.softSkills.issues
              skills := r.softSkills.skills.map
                (fun s =>
                  if s.resumeCount = -1 then
                    if wholeWordOccurs s.skill (t.map Char.toLower) then
                      { s with resumeCount := 1 }
                    else s
                  else s) }
          recruiterTips :=
            { issues := r.recruiterTips.issues
              tips := r.recruiterTips.tips.map
                (fun tip => { tip with status := Status.pass }) } } ∧
    (∀ s : Skill, s.resumeCount ≠ -1 →
      optimizeSkill (t.map Char.toLower) s = s) ∧
    wholeWordOccurs "Java".data ("I know JavaScript".data.map Char.toLower)
      = false ∧
    wholeWordOccurs "Java".data
      ("I know Java and more".data.map Char.toLower) = true := by
  refine ⟨?_, ?_, by decide, by decide⟩
  · rw [calculateOptimizedScore_eq]
    congr 1
    simp only [optimizeReport]
    have e : optimizeSkill (t.map Char.toLower) = fun s : Skill =>
        if s.resumeCount = -1 then
          if wholeWordOccurs s.skill (t.map Char.toLower) then
            { s with resumeCount := 1 }
          else s
        else s := by
      funext s
      unfold optimizeSkill
      by_cases h : s.resumeCount = -1
      · rw [if_pos (by simpa using h), if_pos h]
      · rw [if_neg (by simpa using h), if_neg h]
    rw [e]
  · intro s hs
    unfold optimizeSkill
    rw [if_neg (by simpa using hs)]

/-- C3 witness: a skill already found (resumeCount distinct from -1) is
left unchanged by the optimization pass. -/
theorem claim_C3_witness :
    optimizeSkill ("Python resume".data.map Char.toLower)
        { skill := "SQL".data, resumeCount := 2, jdCount := 1 } =
      { skill := "SQL".data, resumeCount := 2, jdCount := 1 } :=
  (claim_C3 exampleReport "Python resume".data).2.1
    { skill := "SQL".data, resumeCount := 2, jdCount := 1 } (by decide)

lemma take_drop_restore {α : Type} (s : List α) (n : Nat) :
    s.take n ++ s.drop ((s.take n).length) = s := by
  rw [List.length_take]
  rcases Nat.le_total n s.length with h | h
  · rw [Nat.min_eq_left h, List.take_append_drop]
  · rw [Nat.min_eq_right h, List.take_of_length_le h, List.drop_length,
      List.append_nil]

lemma matchKeywordAt_restore {kws : List JSString} {t : JSString} {q : Nat}
    {m : JSString} (h : matchKeywordAt kws t q = some m) :
    m ++ t.drop (q + m.length) = t.drop q := by
  unfold matchKeywordAt at h
  obtain ⟨k, -, rfl⟩ := Option.map_eq_some'.mp h
  have e : t.drop (q + ((t.drop q).take k.length).length) =
      (t.drop q).drop (((t.drop q).take k.length).length) := by
    rw [List.drop_drop, Nat.add_comm]
  rw [e, take_drop_restore]

lemma splitLoop_flatten (kws : List JSString) (t : JSString) :
    ∀ (fuel p q : Nat), p ≤ q →
      (splitLoop kws t fuel p q).flatten = t.drop p := by
  intro fuel
  induction fuel with
  | zero =>
    intro p q _
    simp [splitLoop]
  | succ fuel ih =>
    intro p q hpq
    simp only [splitLoop]
    split
    · split
      · exact ih p (q + 1) (Nat.le_succ_of_le hpq)
      · rename_i m hm
        split
        · exact ih p (q + 1) (Nat.le_succ_of_le hpq)
        · rw [List.flatten_cons, List.flatten_cons,
            ih _ _ (Nat.le_refl _), matchKeywordAt_restore hm]
          have e : t.drop q = (t.drop p).drop (q - p) := by
            rw [List.drop_drop, Nat.add_sub_cancel' hpq]
          rw [e, List.take_append_drop]
    · simp

lemma tagLoop_fst (kws : List JSString) :
    ∀ (ps : List JSString) (li : Nat),
      (tagLoop kws ps li).map Prod.fst = ps := by
  intro ps
  induction ps with
  | nil => intro li; rfl
  | cons a ps ih =>
    intro li
    simp [tagLoop, ih]

/-- C6: concatenating, in order and ignoring tags, all segments returned
by highlightKeywords reproduces the input text exactly, for every text
and keyword list; an empty keyword list or empty text yields the text as
a single plain segment. -/
theorem claim_C6 (keywords : List JSString) (text : JSString) :
    concatSegments (highlightKeywords keywords text) = text ∧
    (keywords = [] ∨ text = [] →
      highlightKeywords keywords text = [(text, false)]) := by
  constructor
  · unfold highlightKeywords
    by_cases hc : keywords.isEmpty || text.isEmpty
    · rw [if_pos hc]
      simp [concatSegments]
    · rw [if_neg hc]
      unfold concatSegments
      rw [tagLoop_fst, splitLoop_flatten keywords text _ 0 0 (Nat.le_refl 0),
        List.drop_zero]
  · intro h
    have hc : (keywords.isEmpty || text.isEmpty) = true := by
      rcases h with h | h <;> simp [h]
    unfold highlightKeywords
    rw [if_pos hc]

/-- C6 witness: an empty keyword list returns the text as one plain
segment, whose concatenation is the text. -/
theorem claim_C6_witness :
    highlightKeywords [] "abc".data = [("abc".data, false)] :=
  (claim_C6 [] "abc".data).2 (Or.inl rfl)

/-- C7: on the text "I know Java and JavaScript" with keyword list
["Java"], exactly the standalone "Java" segment is tagged highlighted;
"JavaScript" is neither split nor tagged. -/
theorem claim_C7 :
    highlightKeywords ["Java".data] "I know Java and JavaScript".data =
      [("I know ".data, false), ("Java".data, true),
        (" and JavaScript".data, false)] := by
  decide

lemma floor_le_rne (s : ℚ) : ⌊s⌋ ≤ rne s := by
  unfold rne
  split_ifs <;> omega

lemma rne_le_floor_add_one (s : ℚ) : rne s ≤ ⌊s⌋ + 1 := by
  unfold rne
  split_ifs <;> omega

lemma rne_mono {s t : ℚ} (h : s ≤ t) : rne s ≤ rne t := by
  have hf : ⌊s⌋ ≤ ⌊t⌋ := Int.floor_le_floor h
  rcases lt_or_eq_of_le hf with hlt | heq
  · have h1 := rne_le_floor_add_one s
    have h2 := floor_le_rne t
    omega
  · have hst : s - (⌊s⌋ : ℚ) ≤ t - (⌊s⌋ : ℚ) := by linarith
    unfold rne
    rw [← heq]
    split_ifs <;> first | omega | (exfalso; linarith)

lemma log2_eq_of (q : ℚ) (e : ℤ) (hq : 0 < q) (h1 : (2:ℚ)^e ≤ q)
    (h2 : q < 2^(e+1)) : Int.log 2 q = e := by
  have lo : ((2:ℕ):ℚ) ^ Int.log 2 q ≤ q := Int.zpow_log_le_self (by norm_num) hq
  have hi : q < ((2:ℕ):ℚ) ^ (Int.log 2 q + 1) :=
    Int.lt_zpow_succ_log_self (by norm_num) q
  have hc : ((2:ℕ):ℚ) = (2:ℚ) := by norm_num
  rw [hc] at lo hi
  by_contra hne
  rcases lt_or_gt_of_ne hne with hlt | hgt
  · have hmono : (2:ℚ)^(Int.log 2 q + 1) ≤ 2^e :=
      zpow_le_zpow_right₀ (by norm_num) (by omega)
    linarith
  · have hmono : (2:ℚ)^(e+1) ≤ 2^(Int.log 2 q) :=
      zpow_le_zpow_right₀ (by norm_num) (by omega)
    linarith

lemma fl_eval_lo (q : ℚ) (e n : ℤ) (hq : 0 < q) (h1 : (2:ℚ)^e ≤ q)
    (h2 : q < 2^(e+1)) (hn1 : (n:ℚ) ≤ q / 2^(e-52))
    (hfr : q / 2^(e-52) - n < 1/2) :
    fl q = (n:ℚ) * 2^(e-52) := by
  have hfloor : ⌊q / 2^(e-52)⌋ = n :=
    Int.floor_eq_iff.mpr ⟨hn1, by linarith⟩
  unfold fl
  rw [if_neg (ne_of_gt hq), if_pos hq, log2_eq_of q e hq h1 h2]
  unfold rne
  rw [hfloor, if_pos hfr]

lemma fl_eval_hi (q : ℚ) (e n : ℤ) (hq : 0 < q) (h1 : (2:ℚ)^e ≤ q)
    (h2 : q < 2^(e+1)) (hfr : 1/2 < q / 2^(e-52) - n)
    (hn2 : q / 2^(e-52) < (n:ℚ) + 1) :
    fl q = ((n:ℚ) + 1) * 2^(e-52) := by
  have hfloor : ⌊q / 2^(e-52)⌋ = n :=
    Int.floor_eq_iff.mpr ⟨by linarith, by linarith⟩
  unfold fl
  rw [if_neg (ne_of_gt hq), if_pos hq, log2_eq_of q e hq h1 h2]
  unfold rne
  rw [hfloor, if_neg (by linarith), if_pos hfr]
  push_cast
  ring

lemma fl_eval_tie_even (q : ℚ) (e n : ℤ) (hq : 0 < q) (h1 : (2:ℚ)^e ≤ q)
    (h2 : q < 2^(e+1)) (htie : q / 2^(e-52) - n = 1/2) (heven : n % 2 = 0) :
    fl q = (n:ℚ) * 2^(e-52) := by
  have hfloor : ⌊q / 2^(e-52)⌋ = n :=
    Int.floor_eq_iff.mpr ⟨by linarith, by linarith⟩
  unfold fl
  rw [if_neg (ne_of_gt hq), if_pos hq, log2_eq_of q e hq h1 h2]
  unfold rne
  rw [hfloor, if_neg (by linarith), if_neg (by linarith), if_pos heven]

lemma fl_zero : fl 0 = 0 := by
  unfold fl
  rw [if_pos rfl]

lemma fl_nonneg {q : ℚ} (h : 0 ≤ q) : 0 ≤ fl q := by
  rcases eq_or_lt_of_le h with heq | hpos
  · rw [← heq, fl_zero]
  · unfold fl
    rw [if_neg (ne_of_gt hpos), if_pos hpos]
    apply mul_nonneg _ (by positivity)
    have h1 : (0:ℤ) ≤ ⌊q / 2 ^ (Int.log 2 q - 52)⌋ :=
      Int.floor_nonneg.mpr (by positivity)
    have h2 := floor_le_rne (q / 2 ^ (Int.log 2 q - 52))
    exact_mod_cast le_trans h1 h2

lemma pow_le_fl {q : ℚ} (hq : 0 < q) : (2:ℚ)^(Int.log 2 q) ≤ fl q := by
  obtain ⟨e, he⟩ : ∃ e, Int.log 2 q = e := ⟨_, rfl⟩
  have hlo : (2:ℚ)^e ≤ q := by
    have h0 : ((2:ℕ):ℚ) ^ Int.log 2 q ≤ q := Int.zpow_log_le_self (by norm_num) hq
    rw [he] at h0
    simpa using h0
  have hs : (2:ℚ)^(52:ℤ) ≤ q / 2^(e-52) := by
    rw [le_div_iff₀ (by positivity)]
    calc (2:ℚ)^(52:ℤ) * 2^(e-52) = 2^(52 + (e-52)) :=
          (zpow_add₀ (by norm_num : (2:ℚ) ≠ 0) _ _).symm
      _ = 2^e := by rw [show (52:ℤ) + (e-52) = e by omega]
      _ ≤ q := hlo
  have hfloor : (4503599627370496:ℤ) ≤ ⌊q / 2^(e-52)⌋ := by
    apply Int.le_floor.mpr
    push_cast
    calc (4503599627370496:ℚ) = 2^(52:ℤ) := by norm_num
      _ ≤ q / 2^(e-52) := hs
  have hrne : (4503599627370496:ℤ) ≤ rne (q / 2^(e-52)) :=
    le_trans hfloor (floor_le_rne _)
  have hsplit : (2:ℚ)^e = 4503599627370496 * 2^(e-52) := by
    rw [show (4503599627370496:ℚ) = (2:ℚ)^(52:ℤ) by norm_num,
      ← zpow_add₀ (by norm_num : (2:ℚ) ≠ 0)]
    rw [show (52:ℤ) + (e-52) = e by omega]
  unfold fl
  rw [if_neg (ne_of_gt hq), if_pos hq, he, hsplit]
  apply mul_le_mul_of_nonneg_right _ (by positivity)
  exact_mod_cast hrne

lemma fl_le_pow_succ {q : ℚ} (hq : 0 < q) : fl q ≤ (2:ℚ)^(Int.log 2 q + 1) := by
  obtain ⟨e, he⟩ : ∃ e, Int.log 2 q = e := ⟨_, rfl⟩
  have hhi : q < (2:ℚ)^(e+1) := by
    have h0 : q < ((2:ℕ):ℚ) ^ (Int.log 2 q + 1) :=
      Int.lt_zpow_succ_log_self (by norm_num) q
    rw [he] at h0
    simpa using h0
  have hs : q / 2^(e-52) < (2:ℚ)^(53:ℤ) := by
    rw [div_lt_iff₀ (by positivity)]
    calc q < 2^(e+1) := hhi
      _ = 2^(53:ℤ) * 2^(e-52) := by
        rw [← zpow_add₀ (by norm_num : (2:ℚ) ≠ 0)]
        rw [show (53:ℤ) + (e-52) = e + 1 by omega]
  have hfloor : ⌊q / 2^(e-52)⌋ < 9007199254740992 := by
    apply Int.floor_lt.mpr
    push_cast
    calc q / 2^(e-52) < (2:ℚ)^(53:ℤ) := hs
      _ = 9007199254740992 := by norm_num
  have hrne : rne (q / 2^(e-52)) ≤ 9007199254740992 := by
    have := rne_le_floor_add_one (q / 2^(e-52))
    omega
  have hsplit : (2:ℚ)^(e+1) = 9007199254740992 * 2^(e-52) := by
    rw [show (9007199254740992:ℚ) = (2:ℚ)^(53:ℤ) by norm_num,
      ← zpow_add₀ (by norm_num : (2:ℚ) ≠ 0)]
    rw [show (53:ℤ) + (e-52) = e + 1 by omega]
  unfold fl
  rw [if_neg (ne_of_gt hq), if_pos hq, he, hsplit]
  apply mul_le_mul_of_nonneg_right _ (by positivity)
  exact_mod_cast hrne

lemma fl_mono {p q : ℚ} (h0 : 0 ≤ p) (h : p ≤ q) : fl p ≤ fl q := by
  rcases eq_or_lt_of_le h0 with heq | hp
  · rw [← heq, fl_zero]
    exact fl_nonneg (le_trans h0 h)
  · have hq : 0 < q := lt_of_lt_of_le hp h
    have hle : Int.log 2 p ≤ Int.log 2 q := Int.log_mono_right hp h
    rcases lt_or_eq_of_le hle with hlt | heq2
    · calc fl p ≤ (2:ℚ)^(Int.log 2 p + 1) := fl_le_pow_succ hp
        _ ≤ (2:ℚ)^(Int.log 2 q) := zpow_le_zpow_right₀ (by norm_num) (by omega)
        _ ≤ fl q := pow_le_fl hq
    · unfold fl
      rw [if_neg (ne_of_gt hp), if_pos hp,
        if_neg (ne_of_gt hq), if_pos hq, heq2]
      apply mul_le_mul_of_nonneg_right _ (by positivity)
      have hdiv : p / 2^(Int.log 2 q - 52) ≤ q / 2^(Int.log 2 q - 52) := by
        rw [div_le_div_iff_of_pos_right (by positivity)]
        exact h
      exact_mod_cast rne_mono hdiv

lemma fl_one : fl 1 = 1 := by
  have h := fl_eval_lo 1 0 4503599627370496 (by norm_num) (by norm_num)
    (by norm_num) (by norm_num) (by norm_num)
  rw [h]
  norm_num

lemma fl_hundred : fl 100 = 100 := by
  have h := fl_eval_lo 100 6 7036874417766400 (by norm_num) (by norm_num)
    (by norm_num) (by norm_num) (by norm_num)
  rw [h]
  norm_num

lemma fl_threequarters : fl ((3:ℚ)/4) = 3/4 := by
  have h := fl_eval_lo ((3:ℚ)/4) (-1) 6755399441055744 (by norm_num)
    (by norm_num) (by norm_num) (by norm_num) (by norm_num)
  rw [h]
  norm_num

lemma fl_onequarter : fl ((1:ℚ)/4) = 1/4 := by
  have h := fl_eval_lo ((1:ℚ)/4) (-2) 4503599627370496 (by norm_num)
    (by norm_num) (by norm_num) (by norm_num) (by norm_num)
  rw [h]
  norm_num

lemma fl_w030 : fl (0.30:ℚ) = 5404319552844595 / 18014398509481984 := by
  have h := fl_eval_lo (0.30:ℚ) (-2) 5404319552844595 (by norm_num)
    (by norm_num) (by norm_num) (by norm_num) (by norm_num)
  rw [h]
  norm_num

lemma fl_w045 : fl (0.45:ℚ) = 8106479329266893 / 18014398509481984 := by
  have h := fl_eval_hi (0.45:ℚ) (-2) 8106479329266892 (by norm_num)
    (by norm_num) (by norm_num) (by norm_num) (by norm_num)
  rw [h]
  norm_num

lemma fl_w010 : fl (0.10:ℚ) = 7205759403792794 / 72057594037927936 := by
  have h := fl_eval_hi (0.10:ℚ) (-4) 7205759403792793 (by norm_num)
    (by norm_num) (by norm_num) (by norm_num) (by norm_num)
  rw [h]
  norm_num

lemma fl_w015 : fl (0.15:ℚ) = 5404319552844595 / 36028797018963968 := by
  have h := fl_eval_lo (0.15:ℚ) (-3) 5404319552844595 (by norm_num)
    (by norm_num) (by norm_num) (by norm_num) (by norm_num)
  rw [h]
  norm_num

lemma fl_w030_fix :
    fl ((5404319552844595:ℚ) / 18014398509481984) =
      5404319552844595 / 18014398509481984 := by
  have h := fl_eval_lo ((5404319552844595:ℚ) / 18014398509481984) (-2)
    5404319552844595 (by norm_num) (by norm_num) (by norm_num) (by norm_num)
    (by norm_num)
  rw [h]
  norm_num

lemma fl_w045_fix :
    fl ((8106479329266893:ℚ) / 18014398509481984) =
      8106479329266893 / 18014398509481984 := by
  have h := fl_eval_lo ((8106479329266893:ℚ) / 18014398509481984) (-2)
    8106479329266893 (by norm_num) (by norm_num) (by norm_num) (by norm_num)
    (by norm_num)
  rw [h]
  norm_num

lemma fl_w010_fix :
    fl ((7205759403792794:ℚ) / 72057594037927936) =
      7205759403792794 / 72057594037927936 := by
  have h := fl_eval_lo ((7205759403792794:ℚ) / 72057594037927936) (-4)
    7205759403792794 (by norm_num) (by norm_num) (by norm_num) (by norm_num)
    (by norm_num)
  rw [h]
  norm_num

lemma fl_w015_fix :
    fl ((5404319552844595:ℚ) / 36028797018963968) =
      5404319552844595 / 36028797018963968 := by
  have h := fl_eval_lo ((5404319552844595:ℚ) / 36028797018963968) (-3)
    5404319552844595 (by norm_num) (by norm_num) (by norm_num) (by norm_num)
    (by norm_num)
  rw [h]
  norm_num

lemma fl_sum12 :
    fl ((5404319552844595:ℚ) / 18014398509481984 +
      8106479329266893 / 18014398509481984) = 3/4 := by
  have h := fl_eval_lo
    ((5404319552844595:ℚ) / 18014398509481984 +
      8106479329266893 / 18014398509481984) (-1) 6755399441055744
    (by norm_num) (by norm_num) (by norm_num) (by norm_num) (by norm_num)
  rw [h]
  norm_num

lemma fl_sum123 :
    fl ((3:ℚ)/4 + 7205759403792794 / 72057594037927936) =
      7656119366529843 / 9007199254740992 := by
  have h := fl_eval_lo ((3:ℚ)/4 + 7205759403792794 / 72057594037927936) (-1)
    7656119366529843 (by norm_num) (by norm_num) (by norm_num) (by norm_num)
    (by norm_num)
  rw [h]
  norm_num

lemma fl_sum1234 :
    fl ((7656119366529843:ℚ) / 9007199254740992 +
      5404319552844595 / 36028797018963968) = 1 := by
  have h := fl_eval_hi
    ((7656119366529843:ℚ) / 9007199254740992 +
      5404319552844595 / 36028797018963968) (-1) 9007199254740991
    (by norm_num) (by norm_num) (by norm_num) (by norm_num) (by norm_num)
  rw [h]
  norm_num

lemma fl_cex_p2 :
    fl ((3:ℚ)/4 * (8106479329266893 / 18014398509481984)) =
      6079859496950170 / 18014398509481984 := by
  have h := fl_eval_hi
    ((3:ℚ)/4 * (8106479329266893 / 18014398509481984)) (-2) 6079859496950169
    (by norm_num) (by norm_num) (by norm_num) (by norm_num) (by norm_num)
  rw [h]
  norm_num

lemma fl_cex_p4 :
    fl ((1:ℚ)/4 * (5404319552844595 / 36028797018963968)) =
      5404319552844595 / 144115188075855872 := by
  have h := fl_eval_lo
    ((1:ℚ)/4 * (5404319552844595 / 36028797018963968)) (-5) 5404319552844595
    (by norm_num) (by norm_num) (by norm_num) (by norm_num) (by norm_num)
  rw [h]
  norm_num

lemma fl_cex_s1 :
    fl ((5404319552844595:ℚ) / 18014398509481984 +
      6079859496950170 / 18014398509481984) =
      5742089524897382 / 9007199254740992 := by
  have h := fl_eval_tie_even
    ((5404319552844595:ℚ) / 18014398509481984 +
      6079859496950170 / 18014398509481984) (-1) 5742089524897382
    (by norm_num) (by norm_num) (by norm_num) (by norm_num) (by norm_num)
  rw [h]
  norm_num

lemma fl_cex_s2 :
    fl ((5742089524897382:ℚ) / 9007199254740992 +
      7205759403792794 / 72057594037927936) =
      6642809450371481 / 9007199254740992 := by
  have h := fl_eval_lo
    ((5742089524897382:ℚ) / 9007199254740992 +
      7205759403792794 / 72057594037927936) (-1) 6642809450371481
    (by norm_num) (by norm_num) (by norm_num) (by norm_num) (by norm_num)
  rw [h]
  norm_num

lemma fl_cex_s3 :
    fl ((6642809450371481:ℚ) / 9007199254740992 +
      5404319552844595 / 144115188075855872) =
      6980579422424268 / 9007199254740992 := by
  have h := fl_eval_lo
    ((6642809450371481:ℚ) / 9007199254740992 +
      5404319552844595 / 144115188075855872) (-1) 6980579422424268
    (by norm_num) (by norm_num) (by norm_num) (by norm_num) (by norm_num)
  rw [h]
  norm_num

lemma fl_cex_final :
    fl ((6980579422424268:ℚ) / 9007199254740992 * 100) =
      5453577673768959 / 70368744177664 := by
  have h := fl_eval_lo
    ((6980579422424268:ℚ) / 9007199254740992 * 100) 6 5453577673768959
    (by norm_num) (by norm_num) (by norm_num) (by norm_num) (by norm_num)
  rw [h]
  norm_num

lemma calculateScoreFP_eq (r : Report) :
    calculateScoreFP r = mathRound (fl (fpFinal r * 100)) := rfl

lemma fpRatio_cex_search : fpTipRatio cexReport.searchability.tips = 1 := by
  have hc : tipPassCount cexReport.searchability.tips = 4 := by decide
  have hl : cexReport.searchability.tips.length = 4 := by decide
  have harg : ((tipPassCount cexReport.searchability.tips : ℚ) /
      (cexReport.searchability.tips.length : ℚ)) = 1 := by
    rw [hc, hl]
    norm_num
  unfold fpTipRatio
  rw [if_pos (by decide), harg, fl_one]

lemma fpRatio_cex_hard : fpSkillRatio cexReport.hardSkills.skills = 3/4 := by
  have hc : skillFoundCount cexReport.hardSkills.skills = 3 := by decide
  have hl : cexReport.hardSkills.skills.length = 4 := by decide
  have harg : ((skillFoundCount cexReport.hardSkills.skills : ℚ) /
      (cexReport.hardSkills.skills.length : ℚ)) = (3:ℚ)/4 := by
    rw [hc, hl]
    norm_num
  unfold fpSkillRatio
  rw [if_pos (by decide), harg, fl_threequarters]

lemma fpRatio_cex_soft : fpSkillRatio cexReport.softSkills.skills = 1 := by
  have hc : skillFoundCount cexReport.softSkills.skills = 4 := by decide
  have hl : cexReport.softSkills.skills.length = 4 := by decide
  have harg : ((skillFoundCount cexReport.softSkills.skills : ℚ) /
      (cexReport.softSkills.skills.length : ℚ)) = 1 := by
    rw [hc, hl]
    norm_num
  unfold fpSkillRatio
  rw [if_pos (by decide), harg, fl_one]

lemma fpRatio_cex_recruiter : fpTipRatio cexReport.recruiterTips.tips = (1:ℚ)/4 := by
  have hc : tipPassCount cexReport.recruiterTips.tips = 1 := by decide
  have hl : cexReport.recruiterTips.tips.length = 4 := by decide
  have harg : ((tipPassCount cexReport.recruiterTips.tips : ℚ) /
      (cexReport.recruiterTips.tips.length : ℚ)) = (1:ℚ)/4 := by
    rw [hc, hl]
    norm_num
  unfold fpTipRatio
  rw [if_pos (by decide), harg, fl_onequarter]

lemma fpFinal_cex : fpFinal cexReport = 6980579422424268 / 9007199254740992 := by
  unfold fpFinal
  rw [fpRatio_cex_search, fpRatio_cex_hard, fpRatio_cex_soft,
    fpRatio_cex_recruiter, fl_w030, fl_w045, fl_w010, fl_w015, one_mul,
    one_mul, fl_w030_fix, fl_cex_p2, fl_w010_fix, fl_cex_p4, fl_cex_s1,
    fl_cex_s2, fl_cex_s3]

lemma calculateScoreFP_cex : calculateScoreFP cexReport = 77 := by
  rw [calculateScoreFP_eq, fpFinal_cex, fl_cex_final]
  unfold mathRound
  refine Int.floor_eq_iff.mpr ⟨by norm_num, by norm_num⟩

lemma fpFrac_nonneg_le (p t : ℕ) (h : p ≤ t) :
    0 ≤ (if t > 0 then fl ((p:ℚ)/(t:ℚ)) else 1) ∧
      (if t > 0 then fl ((p:ℚ)/(t:ℚ)) else 1) ≤ 1 := by
  split_ifs with ht
  · refine ⟨fl_nonneg (by positivity), ?_⟩
    calc fl ((p:ℚ)/(t:ℚ)) ≤ fl 1 :=
        fl_mono (by positivity)
          ((div_le_one (by exact_mod_cast ht)).mpr (by exact_mod_cast h))
      _ = 1 := fl_one
  · norm_num

lemma fpTipRatio_bounds (tips : List StatusTip) :
    0 ≤ fpTipRatio tips ∧ fpTipRatio tips ≤ 1 :=
  fpFrac_nonneg_le (tipPassCount tips) tips.length (tipPassCount_le tips)

lemma fpSkillRatio_bounds (skills : List Skill) :
    0 ≤ fpSkillRatio skills ∧ fpSkillRatio skills ≤ 1 :=
  fpFrac_nonneg_le (skillFoundCount skills) skills.length
    (skillFoundCount_le skills)

lemma fpFinal_nonneg (r : Report) : 0 ≤ fpFinal r := by
  have h1 := (fpTipRatio_bounds r.searchability.tips).1
  have h2 := (fpSkillRatio_bounds r.hardSkills.skills).1
  have h3 := (fpSkillRatio_bounds r.softSkills.skills).1
  have h4 := (fpTipRatio_bounds r.recruiterTips.tips).1
  have w030nn : (0:ℚ) ≤ fl 0.30 := by rw [fl_w030]; norm_num
  have w045nn : (0:ℚ) ≤ fl 0.45 := by rw [fl_w045]; norm_num
  have w010nn : (0:ℚ) ≤ fl 0.10 := by rw [fl_w010]; norm_num
  have w015nn : (0:ℚ) ≤ fl 0.15 := by rw [fl_w015]; norm_num
  exact fl_nonneg (add_nonneg
    (fl_nonneg (add_nonneg
      (fl_nonneg (add_nonneg
        (fl_nonneg (mul_nonneg h1 w030nn))
        (fl_nonneg (mul_nonneg h2 w045nn))))
      (fl_nonneg (mul_nonneg h3 w010nn))))
    (fl_nonneg (mul_nonneg h4 w015nn)))

lemma fpFinal_le_one (r : Report) : fpFinal r ≤ 1 := by
  obtain ⟨hS0, hS1⟩ := fpTipRatio_bounds r.searchability.tips
  obtain ⟨hH0, hH1⟩ := fpSkillRatio_bounds r.hardSkills.skills
  obtain ⟨hSo0, hSo1⟩ := fpSkillRatio_bounds r.softSkills.skills
  obtain ⟨hR0, hR1⟩ := fpTipRatio_bounds r.recruiterTips.tips
  have w030nn : (0:ℚ) ≤ fl 0.30 := by rw [fl_w030]; norm_num
  have w045nn : (0:ℚ) ≤ fl 0.45 := by rw [fl_w045]; norm_num
  have w010nn : (0:ℚ) ≤ fl 0.10 := by rw [fl_w010]; norm_num
  have w015nn : (0:ℚ) ≤ fl 0.15 := by rw [fl_w015]; norm_num
  have p1le : fl (fpTipRatio r.searchability.tips * fl 0.30) ≤
      5404319552844595 / 18014398509481984 := by
    have harg : fpTipRatio r.searchability.tips * fl 0.30 ≤
        5404319552844595 / 18014398509481984 := by
      rw [fl_w030]
      exact mul_le_of_le_one_left (by norm_num) hS1
    calc fl (fpTipRatio r.searchability.tips * fl 0.30) ≤
        fl (5404319552844595 / 18014398509481984) :=
          fl_mono (mul_nonneg hS0 w030nn) harg
      _ = 5404319552844595 / 18014398509481984 := fl_w030_fix
  have p2le : fl (fpSkillRatio r.hardSkills.skills * fl 0.45) ≤
      8106479329266893 / 18014398509481984 := by
    have harg : fpSkillRatio r.hardSkills.skills * fl 0.45 ≤
        8106479329266893 / 18014398509481984 := by
      rw [fl_w045]
      exact mul_le_of_le_one_left (by norm_num) hH1
    calc fl (fpSkillRatio r.hardSkills.skills * fl 0.45) ≤
        fl (8106479329266893 / 18014398509481984) :=
          fl_mono (mul_nonneg hH0 w045nn) harg
      _ = 8106479329266893 / 18014398509481984 := fl_w045_fix
  have p3le : fl (fpSkillRatio r.softSkills.skills * fl 0.10) ≤
      7205759403792794 / 72057594037927936 := by
    have harg : fpSkillRatio r.softSkills.skills * fl 0.10 ≤
        7205759403792794 / 72057594037927936 := by
      rw [fl_w010]
      exact mul_le_of_le_one_left (by norm_num) hSo1
    calc fl (fpSkillRatio r.softSkills.skills * fl 0.10) ≤
        fl (7205759403792794 / 72057594037927936) :=
          fl_mono (mul_nonneg hSo0 w010nn) harg
      _ = 7205759403792794 / 72057594037927936 := fl_w010_fix
  have p4le : fl (fpTipRatio r.recruiterTips.tips * fl 0.15) ≤
      5404319552844595 / 36028797018963968 := by
    have harg : fpTipRatio r.recruiterTips.tips * fl 0.15 ≤
        5404319552844595 / 36028797018963968 := by
      rw [fl_w015]
      exact mul_le_of_le_one_left (by norm_num) hR1
    calc fl (fpTipRatio r.recruiterTips.tips * fl 0.15) ≤
        fl (5404319552844595 / 36028797018963968) :=
          fl_mono (mul_nonneg hR0 w015nn) harg
      _ = 5404319552844595 / 36028797018963968 := fl_w015_fix
  have p1nn : (0:ℚ) ≤ fl (fpTipRatio r.searchability.tips * fl 0.30) :=
    fl_nonneg (mul_nonneg hS0 w030nn)
  have p2nn : (0:ℚ) ≤ fl (fpSkillRatio r.hardSkills.skills * fl 0.45) :=
    fl_nonneg (mul_nonneg hH0 w045nn)
  have p3nn : (0:ℚ) ≤ fl (fpSkillRatio r.softSkills.skills * fl 0.10) :=
    fl_nonneg (mul_nonneg hSo0 w010nn)
  have p4nn : (0:ℚ) ≤ fl (fpTipRatio r.recruiterTips.tips * fl 0.15) :=
    fl_nonneg (mul_nonneg hR0 w015nn)
  have s1le : fl (fl (fpTipRatio r.searchability.tips * fl 0.30) +
      fl (fpSkillRatio r.hardSkills.skills * fl 0.45)) ≤ 3/4 := by
    calc fl (fl (fpTipRatio r.searchability.tips * fl 0.30) +
        fl (fpSkillRatio r.hardSkills.skills * fl 0.45)) ≤
        fl (5404319552844595 / 18014398509481984 +
          8106479329266893 / 18014398509481984) :=
          fl_mono (add_nonneg p1nn p2nn) (add_le_add p1le p2le)
      _ = 3/4 := fl_sum12
  have s1nn : (0:ℚ) ≤ fl (fl (fpTipRatio r.searchability.tips * fl 0.30) +
      fl (fpSkillRatio r.hardSkills.skills * fl 0.45)) :=
    fl_nonneg (add_nonneg p1nn p2nn)
  have s2le : fl (fl (fl (fpTipRatio r.searchability.tips * fl 0.30) +
      fl (fpSkillRatio r.hardSkills.skills * fl 0.45)) +
      fl (fpSkillRatio r.softSkills.skills * fl 0.10)) ≤
      7656119366529843 / 9007199254740992 := by
    calc fl (fl (fl (fpTipRatio r.searchability.tips * fl 0.30) +
        fl (fpSkillRatio r.hardSkills.skills * fl 0.45)) +
        fl (fpSkillRatio r.softSkills.skills * fl 0.10)) ≤
        fl ((3:ℚ)/4 + 7205759403792794 / 72057594037927936) :=
          fl_mono (add_nonneg s1nn p3nn) (add_le_add s1le p3le)
      _ = 7656119366529843 / 9007199254740992 := fl_sum123
  have s2nn : (0:ℚ) ≤ fl (fl (fl (fpTipRatio r.searchability.tips * fl 0.30) +
      fl (fpSkillRatio r.hardSkills.skills * fl 0.45)) +
      fl (fpSkillRatio r.softSkills.skills * fl 0.10)) :=
    fl_nonneg (add_nonneg s1nn p3nn)
  unfold fpFinal
  calc fl (fl (fl (fl (fpTipRatio r.searchability.tips * fl 0.30) +
      fl (fpSkillRatio r.hardSkills.skills * fl 0.45)) +
      fl (fpSkillRatio r.softSkills.skills * fl 0.10)) +
      fl (fpTipRatio r.recruiterTips.tips * fl 0.15)) ≤
      fl (7656119366529843 / 9007199254740992 +
        5404319552844595 / 36028797018963968) :=
        fl_mono (add_nonneg s2nn p4nn) (add_le_add s2le p4le)
    _ = 1 := fl_sum1234

lemma calculateScoreFP_nonneg (r : Report) : 0 ≤ calculateScoreFP r := by
  rw [calculateScoreFP_eq]
  have h : 0 ≤ fl (fpFinal r * 100) :=
    fl_nonneg (mul_nonneg (fpFinal_nonneg r) (by norm_num))
  unfold mathRound
  exact Int.le_floor.mpr (by push_cast; linarith)

lemma calculateScoreFP_le_hundred (r : Report) : calculateScoreFP r ≤ 100 := by
  rw [calculateScoreFP_eq]
  have h0 : 0 ≤ fpFinal r * 100 :=
    mul_nonneg (fpFinal_nonneg r) (by norm_num)
  have h1 : fpFinal r * 100 ≤ 100 := by
    have := fpFinal_le_one r
    linarith
  have h2 : fl (fpFinal r * 100) ≤ 100 := by
    calc fl (fpFinal r * 100) ≤ fl 100 := fl_mono h0 h1
      _ = 100 := fl_hundred
  calc mathRound (fl (fpFinal r * 100)) ≤ mathRound 100 := mathRound_mono h2
    _ = 100 := mathRound_hundred

lemma ifLen_eq_ifEmpty {α : Type} [DecidableEq α] (l : List α) (x : ℚ) :
    (if l.length > 0 then x else 1) = if l = [] then 1 else x := by
  cases l <;> simp

/-- C1 counterexample: on the half-boundary report (searchability 4/4,
hard skills 3/4, soft skills 4/4, recruiter tips 1/4, all section-3
invariants satisfied) the binary64 program returns 77, while round-half-up
of 100 times the exact weighted sum is round(77.5) = 78: the double
evaluation of the sum times 100 is 77.5 - 2^(-46), just below the half
boundary, so the claimed identity fails. -/
theorem claim_C1_counterexample :
    ReportInvariant cexReport ∧
    calculateScoreFP cexReport = 77 ∧
    roundHalfUp (100 *
      ((if cexReport.searchability.tips = [] then 1
        else (tipPassCount cexReport.searchability.tips : ℚ) /
          (cexReport.searchability.tips.length : ℚ)) * 0.30 +
       (if cexReport.hardSkills.skills = [] then 1
        else (skillFoundCount cexReport.hardSkills.skills : ℚ) /
          (cexReport.hardSkills.skills.length : ℚ)) * 0.45 +
       (if cexReport.softSkills.skills = [] then 1
        else (skillFoundCount cexReport.softSkills.skills : ℚ) /
          (cexReport.softSkills.skills.length : ℚ)) * 0.10 +
       (if cexReport.recruiterTips.tips = [] then 1
        else (tipPassCount cexReport.recruiterTips.tips : ℚ) /
          (cexReport.recruiterTips.tips.length : ℚ)) * 0.15)) = 78 ∧
    calculateScoreFP cexReport ≠
      roundHalfUp (100 *
        ((if cexReport.searchability.tips = [] then 1
          else (tipPassCount cexReport.searchability.tips : ℚ) /
            (cexReport.searchability.tips.length : ℚ)) * 0.30 +
         (if cexReport.hardSkills.skills = [] then 1
          else (skillFoundCount cexReport.hardSkills.skills : ℚ) /
            (cexReport.hardSkills.skills.length : ℚ)) * 0.45 +
         (if cexReport.softSkills.skills = [] then 1
          else (skillFoundCount cexReport.softSkills.skills : ℚ) /
            (cexReport.softSkills.skills.length : ℚ)) * 0.10 +
         (if cexReport.recruiterTips.tips = [] then 1
          else (tipPassCount cexReport.recruiterTips.tips : ℚ) /
            (cexReport.recruiterTips.tips.length : ℚ)) * 0.15)) := by
  have hc1 : tipPassCount cexReport.searchability.tips = 4 := by decide
  have hc2 : skillFoundCount cexReport.hardSkills.skills = 3 := by decide
  have hc3 : skillFoundCount cexReport.softSkills.skills = 4 := by decide
  have hc4 : tipPassCount cexReport.recruiterTips.tips = 1 := by decide
  have hsum : (100:ℚ) *
      ((if cexReport.searchability.tips = [] then 1
        else (tipPassCount cexReport.searchability.tips : ℚ) /
          (cexReport.searchability.tips.length : ℚ)) * 0.30 +
       (if cexReport.hardSkills.skills = [] then 1
        else (skillFoundCount cexReport.hardSkills.skills : ℚ) /
          (cexReport.hardSkills.skills.length : ℚ)) * 0.45 +
       (if cexReport.softSkills.skills = [] then 1
        else (skillFoundCount cexReport.softSkills.skills : ℚ) /
          (cexReport.softSkills.skills.length : ℚ)) * 0.10 +
       (if cexReport.recruiterTips.tips = [] then 1
        else (tipPassCount cexReport.recruiterTips.tips : ℚ) /
          (cexReport.recruiterTips.tips.length : ℚ)) * 0.15) = 155/2 := by
    rw [if_neg (show cexReport.searchability.tips ≠ [] by decide),
      if_neg (show cexReport.hardSkills.skills ≠ [] by decide),
      if_neg (show cexReport.softSkills.skills ≠ [] by decide),
      if_neg (show cexReport.recruiterTips.tips ≠ [] by decide),
      hc1, hc2, hc3, hc4,
      show cexReport.searchability.tips.length = 4 by decide,
      show cexReport.hardSkills.skills.length = 4 by decide,
      show cexReport.softSkills.skills.length = 4 by decide,
      show cexReport.recruiterTips.tips.length = 4 by decide]
    norm_num
  have h78 : roundHalfUp (100 *
      ((if cexReport.searchability.tips = [] then 1
        else (tipPassCount cexReport.searchability.tips : ℚ) /
          (cexReport.searchability.tips.length : ℚ)) * 0.30 +
       (if cexReport.hardSkills.skills = [] then 1
        else (skillFoundCount cexReport.hardSkills.skills : ℚ) /
          (cexReport.hardSkills.skills.length : ℚ)) * 0.45 +
       (if cexReport.softSkills.skills = [] then 1
        else (skillFoundCount cexReport.softSkills.skills : ℚ) /
          (cexReport.softSkills.skills.length : ℚ)) * 0.10 +
       (if cexReport.recruiterTips.tips = [] then 1
        else (tipPassCount cexReport.recruiterTips.tips : ℚ) /
          (cexReport.recruiterTips.tips.length : ℚ)) * 0.15)) = 78 := by
    unfold roundHalfUp
    rw [hsum, show ((155:ℚ)/2 + 1/2) = ((78:ℤ):ℚ) by norm_num,
      Int.floor_intCast]
  refine ⟨by decide, calculateScoreFP_cex, h78, ?_⟩
  rw [calculateScoreFP_cex, h78]
  decide

/-- C1 amended: for every Report satisfying the section-3 invariants,
the program returns Math.round of the IEEE-754 binary64 evaluation of
100 times the weighted sum searchability*0.30 + hardSkills*0.45 +
softSkills*0.10 + recruiterTips*0.15, where the weights are the binary64
values of the decimal literals, each section ratio (empty section = 1) is
a correctly rounded binary64 division, and every product, sum and the
final multiplication by 100 is correctly rounded; the result is an
integer in [0, 100]. -/
theorem claim_C1_amended (r : Report) (_hinv : ReportInvariant r) :
    calculateScoreFP r =
      mathRound (fl (fl (fl (fl
        (fl ((if r.searchability.tips = [] then 1
          else fl ((tipPassCount r.searchability.tips : ℚ) /
            (r.searchability.tips.length : ℚ))) * fl 0.30) +
         fl ((if r.hardSkills.skills = [] then 1
          else fl ((skillFoundCount r.hardSkills.skills : ℚ) /
            (r.hardSkills.skills.length : ℚ))) * fl 0.45)) +
         fl ((if r.softSkills.skills = [] then 1
          else fl ((skillFoundCount r.softSkills.skills : ℚ) /
            (r.softSkills.skills.length : ℚ))) * fl 0.10)) +
         fl ((if r.recruiterTips.tips = [] then 1
          else fl ((tipPassCount r.recruiterTips.tips : ℚ) /
            (r.recruiterTips.tips.length : ℚ))) * fl 0.15)) * 100)) ∧
    0 ≤ calculateScoreFP r ∧ calculateScoreFP r ≤ 100 := by
  refine ⟨?_, calculateScoreFP_nonneg r, calculateScoreFP_le_hundred r⟩
  rw [calculateScoreFP_eq]
  have hfp : fpFinal r = fl (fl (fl
      (fl ((if r.searchability.tips = [] then 1
        else fl ((tipPassCount r.searchability.tips : ℚ) /
          (r.searchability.tips.length : ℚ))) * fl 0.30) +
       fl ((if r.hardSkills.skills = [] then 1
        else fl ((skillFoundCount r.hardSkills.skills : ℚ) /
          (r.hardSkills.skills.length : ℚ))) * fl 0.45)) +
       fl ((if r.softSkills.skills = [] then 1
        else fl ((skillFoundCount r.softSkills.skills : ℚ) /
          (r.softSkills.skills.length : ℚ))) * fl 0.10)) +
       fl ((if r.recruiterTips.tips = [] then 1
        else fl ((tipPassCount r.recruiterTips.tips : ℚ) /
          (r.recruiterTips.tips.length : ℚ))) * fl 0.15)) := by
    unfold fpFinal fpTipRatio fpSkillRatio
    rw [ifLen_eq_ifEmpty, ifLen_eq_ifEmpty, ifLen_eq_ifEmpty,
      ifLen_eq_ifEmpty]
  rw [hfp]

/-- C1 amended witness: the invariant holds of the example report and the
bounds apply to it. -/
theorem claim_C1_amended_witness : 0 ≤ calculateScoreFP exampleReport :=
  (claim_C1_amended exampleReport (by decide)).2.1
